import Mathlib

/-!
Verification of the content-indexing pipeline of the Marchie/marchie.io
repository against its natural-language specification.

The shallow embedding below translates:
* the home-page listing query and rendering from `src/src/pages/index.tsx`
  (GraphQL `pageQuery`: filter `published ne false`, sort
  `frontmatter___date DESC`, date `formatString: "D MMMM YYYY"`, the
  title fallback `node.frontmatter.title || node.fields.slug`, and the raw
  `dangerouslySetInnerHTML` rendering of `description`);
* the `Layout` component from `src/src/components/layout.tsx` and the 404
  page from `src/src/pages/404.tsx`;
* the parts of the pipeline that live in the framework rather than in the
  repository's own sources (index building, slug lookup, source scanning,
  excerpt generation), modelled from the specification where marked.

Strings coming from YAML frontmatter that may be absent are modelled as
`Option String`; JavaScript's falsy test on a string is faithful to
`Option.none` or the empty string.
-/

namespace Marchie

/-- Calendar date as parsed from frontmatter (e.g. `date: 2020-05-26`). -/
structure Date where
  year : Nat
  month : Nat
  day : Nat
deriving DecidableEq, Repr

/-- Chronological comparison key: lexicographic on (year, month, day). -/
def dateKey (d : Date) : Nat :=
  d.year * 10000 + d.month * 100 + d.day

/-- English month names used by the `"D MMMM YYYY"` display format. -/
def monthName (m : Nat) : String :=
  (["January", "February", "March", "April", "May", "June", "July",
    "August", "September", "October", "November", "December"]).getD (m - 1) ""

/-- Date rendering per the `formatString: "D MMMM YYYY"` argument supplied in
the page query of `src/src/pages/index.tsx` (line 79): day of month without
padding, full month name, four-digit year. -/
def formatDate (d : Date) : String :=
  toString d.day ++ " " ++ monthName d.month ++ " " ++ toString d.year

/-- One parsed content item (spec §3 `ContentRecord`; at the source level, one
`MarkdownRemark` node: frontmatter fields plus the derived slug, the source
path and the transformed body). Optional frontmatter fields are `Option`. -/
structure ContentRecord where
  slug : String
  path : String
  title : Option String
  date : Date
  tags : List String
  published : Option Bool
  description : Option String
  body : String
deriving DecidableEq, Repr

/-- Filter condition of the listing query
(`filter: {frontmatter: {published: {ne: false}}}`,
`src/src/pages/index.tsx` line 72): a record passes when its `published`
field is not the explicit value `false`; an absent field passes. -/
def publishedNeFalse (r : ContentRecord) : Bool :=
  r.published != some false

/-- Sort relation of the listing query
(`sort: {fields: [frontmatter___date], order: DESC}`,
`src/src/pages/index.tsx` line 73): `a` may come before `b` when `a`'s date
is at least `b`'s. The query orders by date only. -/
def dateDescOrder (a b : ContentRecord) : Prop :=
  dateKey b.date ≤ dateKey a.date

instance : DecidableRel dateDescOrder := fun a b =>
  Nat.decLe (dateKey b.date) (dateKey a.date)

instance : IsTotal ContentRecord dateDescOrder :=
  ⟨fun a b => Nat.le_total (dateKey b.date) (dateKey a.date)⟩

instance : IsTrans ContentRecord dateDescOrder :=
  ⟨fun _ _ _ hab hbc => Nat.le_trans hbc hab⟩

/-- Embedding of the listing query's record selection (spec operation
`listPublished`; source: the `allMarkdownRemark` selection of `pageQuery` in
`src/src/pages/index.tsx` lines 71-74): keep records whose `published` is not
`false`, then sort by `date` descending. A stable sort models the query; no
tie-break key besides the date appears in the source. -/
def listPublished (records : List ContentRecord) : List ContentRecord :=
  List.insertionSort dateDescOrder (records.filter publishedNeFalse)

/-- Shape of one node returned by the listing query
(`src/src/pages/index.tsx` lines 75-85): the query selects `fields.slug` and
the frontmatter fields `date` (already formatted), `description` and
`title` — nothing else. -/
structure QueryNode where
  slug : String
  date : String
  description : Option String
  title : Option String
deriving DecidableEq, Repr

/-- Projection of one record to the node shape delivered by the listing query
(`src/src/pages/index.tsx` lines 78-85), with the date pre-formatted per the
`"D MMMM YYYY"` format argument. -/
def pageQueryNode (r : ContentRecord) : QueryNode :=
  ⟨r.slug, formatDate r.date, r.description, r.title⟩

/-- Full result of the listing page query (`pageQuery` in
`src/src/pages/index.tsx` lines 66-88): the selected records, filtered and
sorted, each projected to the selected fields. -/
def pageQuery (records : List ContentRecord) : List QueryNode :=
  (listPublished records).map pageQueryNode

/-- Title shown for one listing entry
(`src/src/pages/index.tsx` line 25:
`const title = node.frontmatter.title || node.fields.slug`). JavaScript's
`||` falls back on every falsy value, so both an absent title and the empty
string yield the slug. -/
def displayTitle (title : Option String) (slug : String) : String :=
  match title with
  | none => slug
  | some t => if t = "" then slug else t

/-- Markup that the listing injects for a record's summary
(`src/src/pages/index.tsx` line 32:
`<p dangerouslySetInnerHTML = __html: node.frontmatter.description />`):
the `description` string is used as the paragraph's inner HTML unchanged —
no sanitization step appears anywhere between the query and the DOM. -/
def descriptionInnerHtml (node : QueryNode) : String :=
  match node.description with
  | some d => d
  | none => ""

/-- Rendered-markup tree, at the granularity needed to compare component
outputs: a text leaf or an element with children. -/
inductive Html where
  | text : String → Html
  | elem : String → List Html → Html

/-- Embedding of the `Layout` component
(`src/src/components/layout.tsx` lines 11-20). The component's props declare
an optional `title` (line 6), but the function destructures only
`children`: it renders the global style, the navigation, a `main`
element around the children and the footer. -/
def Layout (_title : Option String) (children : List Html) : List Html :=
  [Html.elem "GlobalStyle" [], Html.elem "Navigation" [],
   Html.elem "main" children, Html.elem "Footer" []]

/-- Embedding of the 404 page (`src/src/pages/404.tsx` lines 10-26): it
passes the queried site title into `Layout` (line 16) and renders a fixed
head title, heading and paragraph. -/
def NotFoundPage (siteTitle : String) : List Html :=
  Layout (some siteTitle)
    [Html.elem "Head" [Html.text "404: Not found"],
     Html.elem "h1" [Html.text "Not found"],
     Html.elem "p" [Html.text "...and that's a bad miss!"]]

/-- Modelled from the spec: one discovered source file (spec §3
`ContentFile`); the Source Scanner lives in the framework
(`gatsby-source-filesystem`, configured in the repository's gatsby
configuration) and is not under the repository's own `src/`. -/
structure ContentFile where
  path : String
  rawText : String
deriving DecidableEq, Repr

/-- Modelled from the spec: the fatal error taxonomy of §7 (`ScanError` for
an unreadable or missing root, `SlugCollisionError` naming both offending
paths); the build-time error handling lives in the framework and is not
under the repository's own `src/`. -/
inductive PipelineError where
  | scanError (root : String)
  | slugCollisionError (slug path1 path2 : String)
deriving DecidableEq, Repr

/-- Modelled from the spec: the non-fatal `NotFoundError` signal returned by
`getBySlug` for an unknown slug (spec §4.5, §7). -/
inductive NotFoundError where
  | notFound (slug : String)
deriving DecidableEq, Repr

/-- Modelled from the spec: the queryable collection assembled by the Index
Builder (spec §3 `ContentIndex`); index assembly happens inside the
framework's node store and is not under the repository's own `src/`. -/
structure ContentIndex where
  records : List ContentRecord
deriving DecidableEq, Repr

/-- Modelled from the spec: slug-uniqueness validation of the Index Builder
(spec §4.5). Scans the record sequence for the first pair of records that
resolve to the same slug and reports that slug together with both offending
paths. -/
def findCollision : List ContentRecord → Option PipelineError
  | [] => none
  | r :: rs =>
    match rs.find? (fun s => s.slug == r.slug) with
    | some s => some (PipelineError.slugCollisionError r.slug r.path s.path)
    | none => findCollision rs

/-- Modelled from the spec: the Index Builder (spec §4.5); not under the
repository's own `src/`. Consumes the full parsed record sequence; on a slug
collision it aborts with the error (all-or-nothing — no partial index value
exists on the error branch), otherwise it exposes all records. -/
def buildIndex (records : List ContentRecord) : Except PipelineError ContentIndex :=
  match findCollision records with
  | some e => Except.error e
  | none => Except.ok ⟨records⟩

/-- Modelled from the spec: the slug lookup `getBySlug` (spec §4.5); not
under the repository's own `src/`. Returns the record with the requested
slug or a `NotFoundError` signal. -/
def getBySlug (idx : ContentIndex) (slug : String) : Except NotFoundError ContentRecord :=
  match idx.records.find? (fun r => r.slug == slug) with
  | some r => Except.ok r
  | none => Except.error (NotFoundError.notFound slug)

/-- Modelled from the spec: the Source Scanner (spec §4.1); scanning is done
by `gatsby-source-filesystem` (configured with the `content/posts` path in
the gatsby configuration) and is not under the repository's own `src/`. The
filesystem is modelled as a partial map from root paths to file lists; a
root that does not exist or is not readable maps to `none` and fails with
`ScanError`. -/
def scan (fs : String → Option (List ContentFile)) (root : String) :
    Except PipelineError (List ContentFile) :=
  match fs root with
  | none => Except.error (PipelineError.scanError root)
  | some files => Except.ok files

/-- Modelled from the spec: one full build pass (spec §4.5 state machine
`Scanning → Parsing → Validating → Ready`); the orchestration lives in the
framework and is not under the repository's own `src/`. The per-file parse
stage is passed in as a function; a failed scan aborts the pass before any
record is produced, so no partial result is ever exposed. -/
def runPipeline (parse : ContentFile → ContentRecord)
    (fs : String → Option (List ContentFile)) (root : String) :
    Except PipelineError ContentIndex :=
  match scan fs root with
  | Except.error e => Except.error e
  | Except.ok files => buildIndex (files.map parse)

/-- Excerpt length threshold of the Excerpt Generator (spec §4.4 and §6:
"default ~140 characters"). -/
def excerptThreshold : Nat := 140

/-- Ellipsis marker appended to a truncated excerpt. -/
def ellipsisChar : Char := '…'

/-- Modelled from the spec: the whitespace-boundary truncation of the
Excerpt Generator (spec §4.4); excerpt generation is done by the markdown
transformer plugin and is not under the repository's own `src/`. Takes the
leading `n` characters, drops the trailing partial word and the whitespace
just before it. -/
def truncateAtWhitespace (s : List Char) (n : Nat) : List Char :=
  ((s.take n).rdropWhile (fun c => c != ' ')).rdropWhile (fun c => c == ' ')

/-- Modelled from the spec: the Excerpt Generator (spec §4.4); not under the
repository's own `src/`. An explicit `description` is returned unchanged; an
absent one falls back to the body's plain text, truncated at a whitespace
boundary with a trailing ellipsis when it exceeds the threshold. -/
def generateExcerpt (description : Option String) (bodyPlainText : List Char) : List Char :=
  match description with
  | some d => d.data
  | none =>
    if bodyPlainText.length ≤ excerptThreshold then bodyPlainText
    else truncateAtWhitespace bodyPlainText excerptThreshold ++ [ellipsisChar]

/-! Sample records used in concrete witnesses and counterexamples. Field
order: slug, path, title, date, tags, published, description, body. -/

/-- The repository's own post, `content/posts/right-versus-wrong/index.md`. -/
def rightVersusWrong : ContentRecord :=
  ⟨"right-versus-wrong", "content/posts/right-versus-wrong/index.md",
   some "Right versus wrong", ⟨2020, 5, 26⟩,
   ["Politics", "Coronavirus", "Conservative Party", "Dominic Cummings"],
   some true,
   some "To remind me of the anger I have felt for the past few days for when the time comes to vote",
   "I am utterly outraged, but at the same time, I am powerless."⟩

/-- A record with no `published` field at all. -/
def pubAbsentRec : ContentRecord :=
  ⟨"published-absent", "content/posts/published-absent/index.md",
   some "Published absent", ⟨2021, 3, 1⟩, [], none, none, "body"⟩

/-- A record explicitly marked `published: false`. -/
def pubFalseRec : ContentRecord :=
  ⟨"draft-post", "content/posts/draft-post/index.md",
   some "Draft", ⟨2021, 3, 2⟩, [], some false, none, "draft body"⟩

/-- Tie-break example: shares its date with `tieRecA` but has the larger slug. -/
def tieRecB : ContentRecord :=
  ⟨"zebra-post", "content/posts/zebra-post/index.md",
   some "Zebra", ⟨2020, 5, 26⟩, [], some true, none, "z"⟩

/-- Tie-break example: shares its date with `tieRecB` but has the smaller slug. -/
def tieRecA : ContentRecord :=
  ⟨"aardvark-post", "content/posts/aardvark-post/index.md",
   some "Aardvark", ⟨2020, 5, 26⟩, [], some true, none, "a"⟩

/-- Record equal to `taggedRec2` except in `tags` and `body`. -/
def taggedRec1 : ContentRecord :=
  ⟨"tagged-post", "content/posts/tagged-post/index.md",
   some "Tagged", ⟨2020, 11, 24⟩, ["Drone", "AWS"], some true,
   some "Notes", "First body"⟩

/-- Record equal to `taggedRec1` except in `tags` and `body`. -/
def taggedRec2 : ContentRecord :=
  ⟨"tagged-post", "content/posts/tagged-post/index.md",
   some "Tagged", ⟨2020, 11, 24⟩, ["Kubernetes"], some true,
   some "Notes", "Second body"⟩

/-- Record whose slug collides with `collideRecB`'s from a different path. -/
def collideRecA : ContentRecord :=
  ⟨"duplicate-slug", "content/posts/duplicate-slug/index.md",
   some "First", ⟨2020, 1, 1⟩, [], some true, none, "first"⟩

/-- Record whose slug collides with `collideRecA`'s from a different path. -/
def collideRecB : ContentRecord :=
  ⟨"duplicate-slug", "content/drafts/duplicate-slug/index.md",
   some "Second", ⟨2020, 2, 2⟩, [], some true, none, "second"⟩

/-- A long plain-text body (more than `excerptThreshold` characters). -/
def longBody : List Char :=
  ("Lorem ipsum dolor sit amet, consectetur adipiscing elit, sed do eiusmod " ++
   "tempor incididunt ut labore et dolore magna aliqua. Ut enim ad minim " ++
   "veniam, quis nostrud exercitation ullamco laboris.").data

/-! Helper lemmas. -/

/-- Membership in the listing result is membership in the filtered input. -/
lemma mem_listPublished {r : ContentRecord} {records : List ContentRecord} :
    r ∈ listPublished records ↔ r ∈ records ∧ publishedNeFalse r := by
  unfold listPublished
  rw [(List.perm_insertionSort dateDescOrder _).mem_iff, List.mem_filter]

/-- Dropping a maximal suffix and taking it back reassembles the list. -/
lemma rdropWhile_append_rtakeWhile (p : α → Bool) (l : List α) :
    l.rdropWhile p ++ l.rtakeWhile p = l := by
  rw [List.rdropWhile, List.rtakeWhile, ← List.reverse_append,
    List.takeWhile_append_dropWhile, List.reverse_reverse]

/-- The collision scan succeeds exactly when the slugs are pairwise distinct. -/
lemma findCollision_eq_none_iff (l : List ContentRecord) :
    findCollision l = none ↔ (l.map ContentRecord.slug).Nodup := by
  induction l with
  | nil => simp [findCollision]
  | cons r rs ih =>
    rw [List.map_cons, List.nodup_cons]
    cases hfind : rs.find? (fun s => s.slug == r.slug) with
    | some s =>
      have hs : s.slug = r.slug := by simpa using List.find?_some hfind
      have hmem : r.slug ∈ rs.map ContentRecord.slug := by
        rw [← hs]
        exact List.mem_map_of_mem _ (List.mem_of_find?_eq_some hfind)
      simp [findCollision, hfind, hmem]
    | none =>
      have hnot : r.slug ∉ rs.map ContentRecord.slug := by
        intro hmem
        obtain ⟨s, hsmem, hs⟩ := List.mem_map.mp hmem
        have := List.find?_eq_none.mp hfind s hsmem
        simp [hs] at this
      simp [findCollision, hfind, ih, hnot]

/-- A reported collision names the slug and the paths of two records at two
distinct positions of the input that share that slug: the input splits as
`pre ++ a :: mid ++ b :: post` with `a` strictly before `b`. -/
lemma findCollision_some_spec (l : List ContentRecord) (e : PipelineError)
    (h : findCollision l = some e) :
    ∃ pre mid post a b, l = pre ++ a :: mid ++ b :: post ∧ a.slug = b.slug ∧
      e = PipelineError.slugCollisionError a.slug a.path b.path := by
  induction l with
  | nil => simp [findCollision] at h
  | cons r rs ih =>
    cases hfind : rs.find? (fun s => s.slug == r.slug) with
    | some s =>
      simp only [findCollision, hfind, Option.some.injEq] at h
      have hs : s.slug = r.slug := by simpa using List.find?_some hfind
      obtain ⟨mid, post, hsplit⟩ := List.append_of_mem (List.mem_of_find?_eq_some hfind)
      exact ⟨[], mid, post, r, s, by rw [hsplit]; rfl, hs.symm, h.symm⟩
    | none =>
      rw [show findCollision (r :: rs) = findCollision rs from by
        simp [findCollision, hfind]] at h
      obtain ⟨pre, mid, post, a, b, hsplit, hab, he⟩ := ih h
      exact ⟨r :: pre, mid, post, a, b, by rw [hsplit]; rfl, hab, he⟩

/-- With pairwise-distinct slugs, searching for a member's slug finds exactly
that member. -/
lemma find?_slug_of_nodup (l : List ContentRecord) (r : ContentRecord)
    (hnd : (l.map ContentRecord.slug).Nodup) (hr : r ∈ l) :
    l.find? (fun x => x.slug == r.slug) = some r := by
  induction l with
  | nil => cases hr
  | cons x xs ih =>
    rw [List.map_cons, List.nodup_cons] at hnd
    rcases List.mem_cons.mp hr with h | h
    · subst h
      exact List.find?_cons_of_pos _ (by simp)
    · have hne : (x.slug == r.slug) = false := by
        rw [beq_eq_false_iff_ne]
        intro he
        exact hnd.1 (by rw [he]; exact List.mem_map_of_mem _ h)
      rw [List.find?_cons_of_neg _ (by simp [hne])]
      exact ih hnd.2 h

/-- The truncation used by the excerpt fallback splits the body at a
whitespace boundary: the body is the truncated part followed by a remainder
that starts with a space (unless the truncation is empty). -/
lemma truncateAtWhitespace_boundary (body : List Char) (n : Nat) :
    ∃ rest, body = truncateAtWhitespace body n ++ rest ∧
      (truncateAtWhitespace body n = [] ∨ rest.head? = some ' ') := by
  by_cases ht : truncateAtWhitespace body n = []
  · exact ⟨body, by simp [ht], Or.inl ht⟩
  · have hdec1 := rdropWhile_append_rtakeWhile (fun c => c == ' ')
      ((body.take n).rdropWhile (fun c => c != ' '))
    have hdec2 := rdropWhile_append_rtakeWhile (fun c => c != ' ') (body.take n)
    have hp := List.take_append_drop n body
    have ht1 : (body.take n).rdropWhile (fun c => c != ' ') ≠ [] := by
      intro h
      apply ht
      simp [truncateAtWhitespace, h]
    have hlast : ((body.take n).rdropWhile (fun c => c != ' ')).getLast ht1 = ' ' := by
      have := List.rdropWhile_last_not (fun c => c != ' ') (body.take n) ht1
      simpa using this
    have hu1 : ((body.take n).rdropWhile (fun c => c != ' ')).rtakeWhile
        (fun c => c == ' ') ≠ [] := by
      intro h
      rw [List.rtakeWhile_eq_nil_iff] at h
      exact absurd (by simp [hlast]) (h ht1)
    obtain ⟨c, cs, hcons⟩ := List.exists_cons_of_ne_nil hu1
    have hc : c = ' ' := by
      have hmem : c ∈ ((body.take n).rdropWhile (fun c => c != ' ')).rtakeWhile
          (fun c => c == ' ') := by
        rw [hcons]
        exact List.mem_cons_self _ _
      simpa using List.mem_rtakeWhile_imp hmem
    refine ⟨(((body.take n).rdropWhile (fun c => c != ' ')).rtakeWhile (fun c => c == ' ')) ++
      ((body.take n).rtakeWhile (fun c => c != ' ')) ++ body.drop n, ?_, Or.inr ?_⟩
    · conv_lhs => rw [← hp, ← hdec2, ← hdec1]
      simp [truncateAtWhitespace, List.append_assoc]
    · rw [hcons]
      simp [hc]

/-! Claim theorems. -/

/-- C1: the listing query returns only records whose `published` flag is not
`false`; a record with `published: false` never appears, and a record with no
`published` field is treated as published and does appear. -/
theorem listPublished_respects_published_flag (records : List ContentRecord)
    (r : ContentRecord) :
    (r ∈ listPublished records → r.published ≠ some false) ∧
    (r ∈ records → r.published = some false → r ∉ listPublished records) ∧
    (r ∈ records → r.published = none → r ∈ listPublished records) := by
  refine ⟨fun h => ?_, fun _ hf h => ?_, fun hm hn => ?_⟩
  · have := (mem_listPublished.mp h).2
    simpa [publishedNeFalse] using this
  · have := (mem_listPublished.mp h).2
    simp [publishedNeFalse, hf] at this
  · exact mem_listPublished.mpr ⟨hm, by simp [publishedNeFalse, hn]⟩

/-- Witness for C1 at a concrete two-record root: the record without a
`published` field appears in the listing, its flag is not `false`, and the
`published: false` record is excluded. -/
theorem listPublished_respects_published_flag_witness :
    pubAbsentRec ∈ listPublished [pubAbsentRec, pubFalseRec] ∧
    pubAbsentRec.published ≠ some false ∧
    pubFalseRec ∉ listPublished [pubAbsentRec, pubFalseRec] := by
  have h₁ := listPublished_respects_published_flag [pubAbsentRec, pubFalseRec] pubAbsentRec
  have h₂ := listPublished_respects_published_flag [pubAbsentRec, pubFalseRec] pubFalseRec
  have hmem : pubAbsentRec ∈ listPublished [pubAbsentRec, pubFalseRec] :=
    h₁.2.2 (by decide) (by decide)
  exact ⟨hmem, h₁.1 hmem, h₂.2.1 (by decide) (by decide)⟩

/-- C2 (amended): the listing is sorted by `date` descending and is a
permutation of the published records; the query specifies no further sort
key, so equal-date records keep their relative source order instead of being
tie-broken by slug. -/
theorem listPublished_sorted_date_desc (records : List ContentRecord) :
    List.Sorted dateDescOrder (listPublished records) ∧
    (listPublished records).Perm (records.filter publishedNeFalse) :=
  ⟨List.sorted_insertionSort dateDescOrder _, List.perm_insertionSort dateDescOrder _⟩

/-- Counterexample to C2 as stated: two published records share one date, the
first-listed one has the lexicographically larger slug, and the listing
returns them in that order — not in slug-ascending order. -/
theorem listPublished_no_slug_tiebreak :
    tieRecB.date = tieRecA.date ∧ tieRecA.slug.data < tieRecB.slug.data ∧
    listPublished [tieRecB, tieRecA] = [tieRecB, tieRecA] := by
  refine ⟨rfl, by decide, by decide⟩

/-- C3: an explicit `description` is the finalized excerpt verbatim — both in
the generator and in the listing markup, which injects the queried
`description` string unchanged as inner HTML — while a record without a
`description` and with a body longer than the threshold gets a leading
body prefix cut at a whitespace boundary with a trailing ellipsis. -/
theorem excerpt_description_precedence (d : String) (node : QueryNode)
    (body : List Char) (hd : node.description = some d)
    (hlen : excerptThreshold < body.length) :
    generateExcerpt (some d) body = d.data ∧
    descriptionInnerHtml node = d ∧
    ∃ t rest, generateExcerpt none body = t ++ [ellipsisChar] ∧
      body = t ++ rest ∧ (t = [] ∨ rest.head? = some ' ') := by
  refine ⟨rfl, by simp [descriptionInnerHtml, hd], ?_⟩
  obtain ⟨rest, hsplit, hbound⟩ := truncateAtWhitespace_boundary body excerptThreshold
  exact ⟨truncateAtWhitespace body excerptThreshold, rest,
    by simp [generateExcerpt, Nat.not_le.mpr hlen], hsplit, hbound⟩

set_option maxRecDepth 4000 in
/-- Witness for C3 at a concrete record and body longer than the threshold. -/
theorem excerpt_description_precedence_witness :
    generateExcerpt (some "Notes") longBody = "Notes".data ∧
    descriptionInnerHtml ⟨"tagged-post", "24 November 2020", some "Notes", some "Tagged"⟩
      = "Notes" ∧
    ∃ t rest, generateExcerpt none longBody = t ++ [ellipsisChar] ∧
      longBody = t ++ rest ∧ (t = [] ∨ rest.head? = some ' ') :=
  excerpt_description_precedence "Notes"
    ⟨"tagged-post", "24 November 2020", some "Notes", some "Tagged"⟩
    longBody rfl (by decide)

/-- C4 (amended): a record with no `title` is displayed under its slug, and a
record with a nonempty `title` is displayed under that title; the empty
string, although present, also falls back to the slug. -/
theorem displayTitle_fallback (t s : String) (ht : t ≠ "") :
    displayTitle none s = s ∧ displayTitle (some t) s = t :=
  ⟨rfl, by simp [displayTitle, ht]⟩

/-- Witness for C4 (amended) at the repository's own post. -/
theorem displayTitle_fallback_witness :
    displayTitle none "right-versus-wrong" = "right-versus-wrong" ∧
    displayTitle (some "Right versus wrong") "right-versus-wrong" =
      "Right versus wrong" :=
  displayTitle_fallback "Right versus wrong" "right-versus-wrong" (by decide)

/-- Counterexample to C4 as stated: a record whose `title` is present but
empty is not displayed under that title — the slug is shown instead. -/
theorem displayTitle_present_empty_counterexample :
    displayTitle (some "") "right-versus-wrong" ≠ "" ∧
    displayTitle (some "") "right-versus-wrong" = "right-versus-wrong" := by
  refine ⟨by decide, by decide⟩

/-- C5: two distinct records resolving to the same slug make index
construction fail with a `SlugCollisionError` that identifies both offending
records — the error carries the shared slug and the paths of two records at
two distinct positions of the input (`pre ++ a :: mid ++ b :: post`) that
resolve to it — and no index value is produced (all-or-nothing). -/
theorem buildIndex_slug_collision (records : List ContentRecord)
    (r₁ r₂ : ContentRecord) (h₁ : r₁ ∈ records) (h₂ : r₂ ∈ records)
    (hne : r₁ ≠ r₂) (hslug : r₁.slug = r₂.slug) :
    (∃ e, buildIndex records = Except.error e ∧
      ∃ pre mid post a b, records = pre ++ a :: mid ++ b :: post ∧
        a.slug = b.slug ∧
        e = PipelineError.slugCollisionError a.slug a.path b.path) ∧
    ∀ idx, buildIndex records ≠ Except.ok idx := by
  have hnotnodup : ¬ (records.map ContentRecord.slug).Nodup := fun hnd =>
    hne (List.inj_on_of_nodup_map hnd h₁ h₂ hslug)
  cases hfc : findCollision records with
  | none => exact absurd ((findCollision_eq_none_iff records).mp hfc) hnotnodup
  | some e =>
    refine ⟨⟨e, by simp [buildIndex, hfc], findCollision_some_spec records e hfc⟩, ?_⟩
    intro idx h
    simp [buildIndex, hfc] at h

/-- Witness for C5 at two concrete records sharing one slug. -/
theorem buildIndex_slug_collision_witness :
    (∃ e, buildIndex [collideRecA, collideRecB] = Except.error e ∧
      ∃ pre mid post a b,
        [collideRecA, collideRecB] = pre ++ a :: mid ++ b :: post ∧
        a.slug = b.slug ∧
        e = PipelineError.slugCollisionError a.slug a.path b.path) ∧
    ∀ idx, buildIndex [collideRecA, collideRecB] ≠ Except.ok idx :=
  buildIndex_slug_collision [collideRecA, collideRecB] collideRecA collideRecB
    (by decide) (by decide) (by decide) rfl

/-- C6: after a successful build, looking up any indexed record's slug
returns exactly that record, and looking up a slug belonging to no record
returns the `NotFoundError` signal. -/
theorem getBySlug_roundtrip (records : List ContentRecord) (idx : ContentIndex)
    (r : ContentRecord) (slug : String)
    (hbuild : buildIndex records = Except.ok idx) :
    (r ∈ idx.records → getBySlug idx r.slug = Except.ok r) ∧
    (slug ∉ idx.records.map ContentRecord.slug →
      getBySlug idx slug = Except.error (NotFoundError.notFound slug)) := by
  have hrec : idx.records = records ∧ findCollision records = none := by
    cases hfc : findCollision records with
    | some e => simp [buildIndex, hfc] at hbuild
    | none =>
      simp only [buildIndex, hfc, Except.ok.injEq] at hbuild
      exact ⟨by rw [← hbuild], rfl⟩
  have hnd : (idx.records.map ContentRecord.slug).Nodup := by
    rw [hrec.1]
    exact (findCollision_eq_none_iff records).mp hrec.2
  constructor
  · intro hr
    have hfound := find?_slug_of_nodup idx.records r hnd hr
    simp [getBySlug, hfound]
  · intro hs
    have hnone : idx.records.find? (fun x => x.slug == slug) = none := by
      rw [List.find?_eq_none]
      intro x hx hbeq
      have hxs : x.slug = slug := by simpa using hbeq
      exact hs (by rw [← hxs]; exact List.mem_map_of_mem _ hx)
    simp [getBySlug, hnone]

/-- Witness for C6 at a concrete two-record index: the stored record comes
back from its own slug, and an unknown slug yields the not-found signal. -/
theorem getBySlug_roundtrip_witness :
    getBySlug ⟨[rightVersusWrong, pubAbsentRec]⟩ rightVersusWrong.slug =
      Except.ok rightVersusWrong ∧
    getBySlug ⟨[rightVersusWrong, pubAbsentRec]⟩ "missing-slug" =
      Except.error (NotFoundError.notFound "missing-slug") := by
  have h := getBySlug_roundtrip [rightVersusWrong, pubAbsentRec]
    ⟨[rightVersusWrong, pubAbsentRec]⟩ rightVersusWrong "missing-slug" rfl
  exact ⟨h.1 (by decide), h.2 (by decide)⟩

/-- C7: invoking the pipeline on a root the filesystem cannot provide fails
with `ScanError` for that root and never yields an index — a missing
directory is fatal, not an empty result. -/
theorem runPipeline_missing_root (parse : ContentFile → ContentRecord)
    (fs : String → Option (List ContentFile)) (root : String)
    (hroot : fs root = none) :
    runPipeline parse fs root = Except.error (PipelineError.scanError root) ∧
    ∀ idx, runPipeline parse fs root ≠ Except.ok idx := by
  have hscan : scan fs root = Except.error (PipelineError.scanError root) := by
    simp [scan, hroot]
  refine ⟨by simp [runPipeline, hscan], fun idx h => ?_⟩
  simp [runPipeline, hscan] at h

/-- Witness for C7 at a concrete empty filesystem and root path. -/
theorem runPipeline_missing_root_witness :
    runPipeline (fun f => ⟨f.path, f.path, none, ⟨2020, 1, 1⟩, [], none, none, f.rawText⟩)
      (fun _ => none) "content/posts" =
      Except.error (PipelineError.scanError "content/posts") ∧
    ∀ idx, runPipeline
      (fun f => ⟨f.path, f.path, none, ⟨2020, 1, 1⟩, [], none, none, f.rawText⟩)
      (fun _ => none) "content/posts" ≠ Except.ok idx :=
  runPipeline_missing_root _ (fun _ => none) "content/posts" rfl

/-- C8 (amended): every listing-query node carries the record's date
pre-formatted per the supplied `"D MMMM YYYY"` pattern together with its
slug, title and description; the query selects nothing else, so its result
is independent of a record's `tags` and `body`. -/
theorem pageQuery_projection (records : List ContentRecord) :
    (pageQuery records).map QueryNode.date =
      (listPublished records).map (fun r => formatDate r.date) ∧
    (pageQuery records).map QueryNode.slug =
      (listPublished records).map ContentRecord.slug ∧
    (pageQuery records).map QueryNode.title =
      (listPublished records).map ContentRecord.title ∧
    (pageQuery records).map QueryNode.description =
      (listPublished records).map ContentRecord.description ∧
    ∀ (r : ContentRecord) (tags : List String) (body : String),
      pageQueryNode ⟨r.slug, r.path, r.title, r.date, tags, r.published,
        r.description, body⟩ = pageQueryNode r := by
  refine ⟨?_, ?_, ?_, ?_, fun r tags body => rfl⟩ <;>
    simp [pageQuery, pageQueryNode, List.map_map, Function.comp]

/-- Counterexample to C8 as stated: two records that differ in `tags` and in
`body` produce identical listing-query nodes, so the listing result does not
carry data sufficient to render tags or body markup. -/
theorem pageQuery_drops_tags_and_body :
    pageQueryNode taggedRec1 = pageQueryNode taggedRec2 ∧
    taggedRec1.tags ≠ taggedRec2.tags ∧ taggedRec1.body ≠ taggedRec2.body := by
  refine ⟨rfl, by decide, by decide⟩

/-- C9: `Layout`'s output is the same for every value of its optional
`title` prop — including omitting it — so the 404 page's output does not
depend on the site title it passes in. -/
theorem Layout_ignores_title :
    (∀ (t₁ t₂ : Option String) (children : List Html),
      Layout t₁ children = Layout t₂ children) ∧
    (∀ s₁ s₂ : String, NotFoundPage s₁ = NotFoundPage s₂) :=
  ⟨fun _ _ _ => rfl, fun _ _ => rfl⟩

/-- C10: the home-page title fallback triggers for every falsy title — an
absent title and the empty-string title both display the slug. -/
theorem displayTitle_falsy_fallback (s : String) :
    displayTitle none s = s ∧ displayTitle (some "") s = s :=
  ⟨rfl, by simp [displayTitle]⟩

end Marchie
